import Mathlib

/-!
Shallow embedding of the LinkedIn scraper's work-distribution and
incremental-checkpoint core (src/utils/playwright_scrapper.py,
src/utils/state_management.py) and of the activity dedup/merge engine
(src/test.py), together with proofs of the spec's testable properties.

Time is modelled as an integer number of days (the code compares
`datetime` values; only their order matters to the properties proved
here).  A raw timestamp string is modelled by the cases
`parse_linkedin_timestamp` distinguishes: an ISO datetime, a relative
age such as "2d"/"3mo"/"1yr", or an unparseable / missing string.
-/

/-- The unit suffix of a relative LinkedIn timestamp: `d`, `mo` or `yr`
(the alternatives of the regex `(\d+)\s*(d|mo|yr)` in
`parse_linkedin_timestamp`). -/
inductive RelUnit where
  | d
  | mo
  | yr
deriving DecidableEq, Repr

/-- A raw timestamp string, abstracted to the cases the parser
distinguishes: `iso t` is an ISO datetime denoting absolute time `t`,
`rel n u` is a relative age like "2d", `bad` is a non-empty string
matching neither form, `empty` is `None` / the empty string (falsy in
Python). -/
inductive TsStr where
  | iso (t : Int)
  | rel (n : Nat) (u : RelUnit)
  | bad
  | empty
deriving DecidableEq, Repr

/-- Number of days a relative timestamp reaches back:
`d` → n days, `mo` → n*30 days, `yr` → n*365 days
(`parse_linkedin_timestamp`, lines 63-68). -/
def RelUnit.days (n : Nat) : RelUnit → Int
  | .d => n
  | .mo => n * 30
  | .yr => n * 365

/-- `parse_linkedin_timestamp(ts)` at wall-clock time `now`:
`None`/empty → `none`; ISO parses to its absolute time; a relative age
resolves to `now` minus its length; anything else → `none`. -/
def parse_linkedin_timestamp (now : Int) : TsStr → Option Int
  | .iso t => some t
  | .rel n u => some (now - u.days n)
  | .bad => none
  | .empty => none

/-- One raw activity record as seen by `incremental_filter`: the filter
reads only `activity.get('timestamp')`; the rest of the dict is carried
opaquely as `payload`. -/
structure Activity where
  timestamp : TsStr
  payload : String
deriving DecidableEq, Repr

/-- The running `most_recent` update of `incremental_filter`
(line 1727-1728): `if not most_recent or (activity_time and
activity_time > most_recent): most_recent = activity_time`. -/
def updateMostRecent (mr t : Option Int) : Option Int :=
  match mr, t with
  | none, t => t
  | some m, some tt => if m < tt then some tt else some m
  | some m, none => some m

/-- Python truthiness of `max_count` combined with the bound test:
`if max_count and len(filtered) >= max_count: break` (line 1729). -/
def maxReached (maxCount : Option Nat) (len : Nat) : Bool :=
  match maxCount with
  | none => false
  | some m => decide (m ≠ 0) && decide (m ≤ len)

/-- The drop test of `incremental_filter` (line 1724):
`if cutoff and activity_time and activity_time <= cutoff: continue`. -/
def droppedByCutoff (cutoff t : Option Int) : Bool :=
  match cutoff, t with
  | some c, some tt => decide (tt ≤ c)
  | _, _ => false

/-- Loop body of `incremental_filter` (lines 1722-1730), with the
already-kept records accumulated in reverse in `acc`. -/
def incFilterGo (now : Int) (cutoff : Option Int) (maxCount : Option Nat) :
    List Activity → List Activity → Option Int → List Activity × Option Int
  | [], acc, mr => (acc.reverse, mr)
  | a :: rest, acc, mr =>
    let t := parse_linkedin_timestamp now a.timestamp
    if droppedByCutoff cutoff t then
      incFilterGo now cutoff maxCount rest acc mr
    else
      let acc' := a :: acc
      let mr' := updateMostRecent mr t
      if maxReached maxCount acc'.length then (acc'.reverse, mr')
      else incFilterGo now cutoff maxCount rest acc' mr'

/-- `incremental_filter(data, since_timestamp, max_count)` at time `now`
(lines 1717-1731).  Returns the kept records and `most_recent` (the
Python code returns `most_recent.isoformat()`; the absolute time is
kept here).  `since = none` models `since_timestamp` being `None`/empty
(falsy), in which case no cutoff is applied. -/
def incremental_filter (now : Int) (data : List Activity)
    (since : Option TsStr) (maxCount : Option Nat) :
    List Activity × Option Int :=
  let cutoff := since.bind (parse_linkedin_timestamp now)
  incFilterGo now cutoff maxCount data [] none

/-- Marker update done by `scrape_user_activity` (lines 1598-1599 etc.):
`if most_recent_post_time: new_times["last_post_time"] = ...` — the
stored marker is replaced by `most_recent` (as an ISO string) only when
`most_recent` is not `None`, else kept. -/
def applyMarker (old : Option TsStr) (mr : Option Int) : Option TsStr :=
  match mr with
  | some t => some (.iso t)
  | none => old

/-- Model of `_extract_posts` / `_extract_comments` / `_extract_reactions`
(lines 1733-1815): the raw in-page batch is truncated to `max` records
(`posts_data[:max_posts]`) and then passed to
`incremental_filter(posts_data, since_timestamp, max_posts)`. -/
def extract_batch (now : Int) (raw : List Activity) (since : Option TsStr)
    (max : Nat) : List Activity × Option Int :=
  incremental_filter now (raw.take max) since (some max)

/-- Maximum of a list of times, `none` on the empty list. -/
def listMaxO : List Int → Option Int
  | [] => none
  | x :: xs => some (xs.foldl max x)

example :
    incremental_filter 100 [⟨.iso 4, "a"⟩, ⟨.iso 6, "b"⟩]
      (some (.iso 5)) (some 5) = ([⟨.iso 6, "b"⟩], some 6) := by
  decide

example :
    incremental_filter 100 [⟨.bad, "a"⟩] (some (.iso 5)) (some 5)
      = ([⟨.bad, "a"⟩], none) := by
  decide

example :
    incremental_filter 100 [⟨.rel 2 .d, "a"⟩] (some (.iso 5)) (some 5)
      = ([⟨.rel 2 .d, "a"⟩], some 98) := by
  decide

section FilterLemmas

variable (now : Int) (cutoff : Option Int) (mc : Option Nat)

lemma maxReached_true {mc : Option Nat} {n : Nat} (h : maxReached mc n = true) :
    ∃ k, mc = some k ∧ k ≠ 0 ∧ k ≤ n := by
  cases mc with
  | none => simp [maxReached] at h
  | some k =>
    simp only [maxReached, Bool.and_eq_true, decide_eq_true_eq] at h
    exact ⟨k, rfl, h.1, h.2⟩

lemma incFilterGo_acc_mem (l : List Activity) :
    ∀ (acc : List Activity) (mr : Option Int) (a : Activity), a ∈ acc →
      a ∈ (incFilterGo now cutoff mc l acc mr).1 := by
  induction l with
  | nil =>
    intro acc mr a ha
    simpa [incFilterGo] using ha
  | cons b rest ih =>
    intro acc mr a ha
    simp only [incFilterGo]
    split
    · exact ih acc mr a ha
    · split
      · simp [ha]
      · exact ih (b :: acc) _ a (List.mem_cons_of_mem b ha)

lemma incFilterGo_shape (l : List Activity) :
    ∀ (acc : List Activity) (mr : Option Int), ∃ kept,
      (incFilterGo now cutoff mc l acc mr).1 = acc.reverse ++ kept ∧
        kept.Sublist l := by
  induction l with
  | nil =>
    intro acc mr
    exact ⟨[], by simp [incFilterGo], List.nil_sublist _⟩
  | cons b rest ih =>
    intro acc mr
    simp only [incFilterGo]
    split
    · obtain ⟨kept, h1, h2⟩ := ih acc mr
      exact ⟨kept, h1, h2.cons b⟩
    · split
      · exact ⟨[b], by simp, (List.nil_sublist rest).cons₂ b⟩
      · obtain ⟨kept, h1, h2⟩ := ih (b :: acc) _
        exact ⟨b :: kept, by simpa using h1, h2.cons₂ b⟩

lemma incFilterGo_mem (l : List Activity) :
    ∀ (acc : List Activity) (mr : Option Int) (a : Activity),
      a ∈ (incFilterGo now cutoff mc l acc mr).1 →
      a ∈ acc ∨ (a ∈ l ∧
        droppedByCutoff cutoff (parse_linkedin_timestamp now a.timestamp) = false) := by
  induction l with
  | nil =>
    intro acc mr a h
    left; simpa [incFilterGo] using h
  | cons b rest ih =>
    intro acc mr a h
    simp only [incFilterGo] at h
    split at h
    · rcases ih acc mr a h with h' | ⟨h1, h2⟩
      · exact Or.inl h'
      · exact Or.inr ⟨List.mem_cons_of_mem b h1, h2⟩
    · rename_i hnd
      rw [Bool.not_eq_true] at hnd
      split at h
      · simp only [List.mem_reverse] at h
        rcases List.mem_cons.mp h with rfl | h'
        · exact Or.inr ⟨List.mem_cons_self a rest, hnd⟩
        · exact Or.inl h'
      · rcases ih (b :: acc) _ a h with h' | ⟨h1, h2⟩
        · rcases List.mem_cons.mp h' with rfl | h''
          · exact Or.inr ⟨List.mem_cons_self a rest, hnd⟩
          · exact Or.inl h''
        · exact Or.inr ⟨List.mem_cons_of_mem b h1, h2⟩

lemma incFilterGo_keep (l : List Activity) :
    ∀ (acc : List Activity) (mr : Option Int) (a : Activity),
      (∀ k, mc = some k → acc.length + l.length ≤ k) →
      a ∈ l →
      droppedByCutoff cutoff (parse_linkedin_timestamp now a.timestamp) = false →
      a ∈ (incFilterGo now cutoff mc l acc mr).1 := by
  induction l with
  | nil =>
    intro acc mr a _ ha _
    exact absurd ha (List.not_mem_nil a)
  | cons b rest ih =>
    intro acc mr a hlen ha hnd
    simp only [incFilterGo]
    split
    · rename_i hd
      rcases List.mem_cons.mp ha with rfl | ha'
      · rw [hnd] at hd; exact absurd hd (by simp)
      · refine ih acc mr a (fun k hk => ?_) ha' hnd
        have := hlen k hk
        simp only [List.length_cons] at this
        omega
    · split
      · rename_i hmax
        obtain ⟨k, hk, hk0, hkle⟩ := maxReached_true hmax
        have hlen' := hlen k hk
        simp only [List.length_cons] at hlen' hkle
        have hrest : rest.length = 0 := by omega
        rw [List.length_eq_zero] at hrest
        subst hrest
        rcases List.mem_cons.mp ha with rfl | ha'
        · simp
        · exact absurd ha' (List.not_mem_nil a)
      · rcases List.mem_cons.mp ha with rfl | ha'
        · exact incFilterGo_acc_mem now cutoff mc rest (a :: acc) _ a
            (List.mem_cons_self a acc)
        · refine ih (b :: acc) _ a (fun k hk => ?_) ha' hnd
          have := hlen k hk
          simp only [List.length_cons] at this ⊢
          omega

end FilterLemmas

/-- One `most_recent` update step, indexed by the record it consumes. -/
def mrStep (now : Int) (mr : Option Int) (a : Activity) : Option Int :=
  updateMostRecent mr (parse_linkedin_timestamp now a.timestamp)

section MrLemmas

variable (now : Int) (cutoff : Option Int) (mc : Option Nat)

lemma incFilterGo_mr (l : List Activity) :
    ∀ (acc : List Activity) (mr : Option Int),
      (incFilterGo now cutoff mc l acc mr).2 =
        ((incFilterGo now cutoff mc l acc mr).1.drop acc.length).foldl
          (mrStep now) mr := by
  induction l with
  | nil =>
    intro acc mr
    simp [incFilterGo, List.drop_eq_nil_of_le]
  | cons b rest ih =>
    intro acc mr
    simp only [incFilterGo]
    split
    · exact ih acc mr
    · split
      · have h1 : ((b :: acc).reverse).drop acc.length = [b] := by
          have : (b :: acc).reverse = acc.reverse ++ [b] := by simp
          rw [this]
          rw [show acc.length = acc.reverse.length by simp]
          simp [List.drop_left]
        simp only [h1, List.foldl_cons, List.foldl_nil]
        rfl
      · rw [ih (b :: acc) _]
        obtain ⟨kept, hsh, -⟩ := incFilterGo_shape now cutoff mc rest (b :: acc) _
        rw [hsh]
        have hrw : (b :: acc).reverse ++ kept = acc.reverse ++ (b :: kept) := by simp
        rw [hrw]
        have h2 : (acc.reverse ++ (b :: kept)).drop acc.length = b :: kept := by
          rw [show acc.length = acc.reverse.length by simp]
          exact List.drop_left _ _
        have h3 : (acc.reverse ++ (b :: kept)).drop (b :: acc).length = kept := by
          have : acc.reverse ++ (b :: kept) = (acc.reverse ++ [b]) ++ kept := by simp
          rw [this]
          rw [show (b :: acc).length = (acc.reverse ++ [b]).length by simp]
          exact List.drop_left _ _
        rw [h2, h3, List.foldl_cons]
        rfl

lemma foldl_mrStep_some (l : List Activity) :
    ∀ m : Int, l.foldl (mrStep now) (some m) =
      some ((l.filterMap (fun a => parse_linkedin_timestamp now a.timestamp)).foldl
        max m) := by
  induction l with
  | nil => intro m; simp
  | cons a rest ih =>
    intro m
    cases h : parse_linkedin_timestamp now a.timestamp with
    | none => simp [mrStep, updateMostRecent, h, ih]
    | some t =>
      have hmax : (if m < t then some t else some m) = some (max m t) := by
        rw [max_def]
        by_cases hlt : m < t
        · rw [if_pos hlt, if_pos (le_of_lt hlt)]
        · rw [if_neg hlt]
          by_cases hle : m ≤ t
          · have : m = t := by omega
            subst this; rw [if_pos le_rfl]
          · rw [if_neg hle]
      simp only [List.foldl_cons, List.filterMap_cons, h, mrStep, updateMostRecent,
        hmax, ih]

lemma foldl_mrStep_none (l : List Activity) :
    l.foldl (mrStep now) none =
      listMaxO (l.filterMap (fun a => parse_linkedin_timestamp now a.timestamp)) := by
  induction l with
  | nil => simp [listMaxO]
  | cons a rest ih =>
    cases h : parse_linkedin_timestamp now a.timestamp with
    | none => simp [mrStep, updateMostRecent, h, ih]
    | some t =>
      simp only [List.foldl_cons, List.filterMap_cons, h, mrStep, updateMostRecent,
        listMaxO]
      exact foldl_mrStep_some now rest t

/-- The `most_recent` value returned by `incremental_filter` is the
maximum resolvable timestamp among the surviving records. -/
lemma incremental_filter_mr (data : List Activity) (since : Option TsStr) :
    (incremental_filter now data since mc).2 =
      listMaxO ((incremental_filter now data since mc).1.filterMap
        (fun a => parse_linkedin_timestamp now a.timestamp)) := by
  unfold incremental_filter
  rw [incFilterGo_mr]
  simp [foldl_mrStep_none]

end MrLemmas

lemma le_foldl_max (xs : List Int) : ∀ x : Int, x ≤ xs.foldl max x := by
  induction xs with
  | nil => simp
  | cons a rest ih =>
    intro x
    exact le_trans (le_max_left x a) (ih (max x a))

lemma mem_le_foldl_max (xs : List Int) : ∀ (x t : Int), t ∈ xs → t ≤ xs.foldl max x := by
  induction xs with
  | nil => intro x t ht; exact absurd ht (List.not_mem_nil t)
  | cons a rest ih =>
    intro x t ht
    simp only [List.foldl_cons]
    rcases List.mem_cons.mp ht with rfl | h
    · exact le_trans (le_max_right x t) (le_foldl_max rest (max x t))
    · exact ih (max x a) t h

lemma foldl_max_mem (xs : List Int) : ∀ x : Int, xs.foldl max x ∈ x :: xs := by
  induction xs with
  | nil => simp
  | cons a rest ih =>
    intro x
    simp only [List.foldl_cons]
    rcases List.mem_cons.mp (ih (max x a)) with h | h
    · rw [h]
      rcases max_choice x a with h' | h' <;> rw [h'] <;> simp
    · simp [h]

lemma listMaxO_mem {xs : List Int} {m : Int} (h : listMaxO xs = some m) : m ∈ xs := by
  cases xs with
  | nil => simp [listMaxO] at h
  | cons x rest =>
    simp only [listMaxO, Option.some.injEq] at h
    subst h
    exact foldl_max_mem rest x

lemma listMaxO_ge {xs : List Int} {m : Int} (h : listMaxO xs = some m) :
    ∀ t ∈ xs, t ≤ m := by
  cases xs with
  | nil => intro t ht; exact absurd ht (List.not_mem_nil t)
  | cons x rest =>
    simp only [listMaxO, Option.some.injEq] at h
    subst h
    intro t ht
    rcases List.mem_cons.mp ht with rfl | h'
    · exact le_foldl_max rest t
    · exact mem_le_foldl_max rest x t h'

lemma incFilterGo_len (now : Int) (cutoff : Option Int) (m : Nat)
    (l : List Activity) :
    ∀ (acc : List Activity) (mr : Option Int), acc.length < m →
      (incFilterGo now cutoff (some m) l acc mr).1.length ≤ m := by
  induction l with
  | nil =>
    intro acc mr h
    simp only [incFilterGo, List.length_reverse]
    omega
  | cons b rest ih =>
    intro acc mr h
    simp only [incFilterGo]
    split
    · exact ih acc mr h
    · split
      · simp only [List.length_reverse, List.length_cons]
        omega
      · rename_i hmx
        refine ih (b :: acc) _ ?_
        simp only [maxReached, Bool.and_eq_true, decide_eq_true_eq,
          List.length_cons] at hmx
        simp only [List.length_cons]
        omega

/-- C1: Checkpoint filtering and marker emission.  For an activity batch
(of the size actually passed by `_extract_posts`/`_extract_comments`/
`_extract_reactions`, which truncate to `max_count` records before
filtering) and a stored marker `T`: every record resolving at or before
`T` is dropped, every record resolving after `T` is kept, the emitted
`most_recent` equals the maximum resolvable timestamp among surviving
records, and when nothing survives (in particular on an empty batch) the
stored marker is left unchanged by `scrape_user_activity`'s update. -/
theorem C1_checkpoint_filter_and_marker
    (now T : Int) (data : List Activity) (m : Nat) (old : Option TsStr)
    (hlen : data.length ≤ m) :
    (∀ a ∈ data, ∀ t : Int, parse_linkedin_timestamp now a.timestamp = some t →
        t ≤ T → a ∉ (incremental_filter now data (some (.iso T)) (some m)).1) ∧
    (∀ a ∈ data, ∀ t : Int, parse_linkedin_timestamp now a.timestamp = some t →
        T < t → a ∈ (incremental_filter now data (some (.iso T)) (some m)).1) ∧
    ((incremental_filter now data (some (.iso T)) (some m)).2 =
      listMaxO ((incremental_filter now data (some (.iso T)) (some m)).1.filterMap
        (fun a => parse_linkedin_timestamp now a.timestamp))) ∧
    ((incremental_filter now data (some (.iso T)) (some m)).1 = [] →
      applyMarker old (incremental_filter now data (some (.iso T)) (some m)).2 = old) ∧
    (data = [] →
      incremental_filter now data (some (.iso T)) (some m) = ([], none)) := by
  have hcut : incremental_filter now data (some (.iso T)) (some m) =
      incFilterGo now (some T) (some m) data [] none := rfl
  refine ⟨?_, ?_, ?_, ?_, ?_⟩
  · intro a _ t hp hle hmem
    rw [hcut] at hmem
    rcases incFilterGo_mem now (some T) (some m) data [] none a hmem with h | ⟨-, hnd⟩
    · exact absurd h (List.not_mem_nil a)
    · rw [hp] at hnd
      simp only [droppedByCutoff, decide_eq_false_iff_not] at hnd
      exact hnd hle
  · intro a ha t hp hgt
    rw [hcut]
    refine incFilterGo_keep now (some T) (some m) data [] none a
      (fun k hk => ?_) ha ?_
    · cases hk; simpa using hlen
    · rw [hp]
      simp only [droppedByCutoff, decide_eq_false_iff_not]
      omega
  · exact incremental_filter_mr now (some m) data (some (.iso T))
  · intro h1
    have h2 := incremental_filter_mr now (some m) data (some (.iso T))
    rw [h1] at h2
    simp only [List.filterMap_nil] at h2
    rw [h2]
    rfl
  · intro h; subst h; rfl

/-- Witness for C1 at a concrete input: marker `T = 5`; a post at time 4
is dropped and a post at time 6 is kept. -/
theorem C1_witness :
    ([(⟨.iso 4, "a"⟩ : Activity), ⟨.iso 6, "b"⟩] : List Activity).length ≤ 5 ∧
    (⟨.iso 6, "b"⟩ : Activity) ∈
      (incremental_filter 100 [⟨.iso 4, "a"⟩, ⟨.iso 6, "b"⟩]
        (some (.iso 5)) (some 5)).1 :=
  ⟨by decide,
    (C1_checkpoint_filter_and_marker 100 5 [⟨.iso 4, "a"⟩, ⟨.iso 6, "b"⟩] 5
        (some (.iso 5)) (by decide)).2.1
      ⟨.iso 6, "b"⟩ (by decide) 6 rfl (by decide)⟩

/-- C7 counterexample: the claim says a record with an unparseable
timestamp is dropped when a marker for its kind exists.  With stored
marker `iso 5` present, the unparseable record is nevertheless kept:
the drop test `if cutoff and activity_time and activity_time <= cutoff`
is false whenever `activity_time` is `None`. -/
theorem C7_counterexample :
    parse_linkedin_timestamp 100 TsStr.bad = none ∧
    (incremental_filter 100 [⟨.bad, "u"⟩] (some (.iso 5)) (some 5)).1
      = [⟨.bad, "u"⟩] := by
  decide

/-- C7 amended: a record whose timestamp cannot be parsed is always kept
by `incremental_filter` (whether or not a marker exists for its kind),
as long as the batch fits within the cap — it never triggers the cutoff
drop. -/
theorem C7_unparseable_always_kept
    (now : Int) (data : List Activity) (since : Option TsStr) (m : Nat)
    (a : Activity) (hlen : data.length ≤ m) (ha : a ∈ data)
    (hbad : parse_linkedin_timestamp now a.timestamp = none) :
    a ∈ (incremental_filter now data since (some m)).1 := by
  unfold incremental_filter
  refine incFilterGo_keep now _ (some m) data [] none a (fun k hk => ?_) ha ?_
  · cases hk; simpa using hlen
  · rw [hbad]
    cases since.bind (parse_linkedin_timestamp now) <;> rfl

/-- Witness for C7's amended statement: a marker exists (`iso 5`), the
record's timestamp is unparseable, and the record is kept. -/
theorem C7_witness :
    ([(⟨.bad, "u"⟩ : Activity)].length ≤ 5 ∧
      (⟨.bad, "u"⟩ : Activity) ∈ [(⟨.bad, "u"⟩ : Activity)] ∧
      parse_linkedin_timestamp 100 TsStr.bad = none) ∧
    (⟨.bad, "u"⟩ : Activity) ∈
      (incremental_filter 100 [⟨.bad, "u"⟩] (some (.iso 5)) (some 5)).1 :=
  ⟨⟨by decide, by decide, rfl⟩,
    C7_unparseable_always_kept 100 [⟨.bad, "u"⟩] (some (.iso 5)) 5
      ⟨.bad, "u"⟩ (by decide) (by decide) rfl⟩

/-- C10 (implicit per-kind batch limit): the three per-kind extractors
each return at most 5 records (they are called with
`max_posts=5`/`max_comments=5`/`max_reactions=5`); for every input list
and every positive `max_count` the filter returns at most `max_count`
records; and the kept records are a sublist of the batch (same relative
order). -/
theorem C10_batch_limit (now : Int) :
    (∀ (raw : List Activity) (since : Option TsStr),
      (extract_batch now raw since 5).1.length ≤ 5) ∧
    (∀ (data : List Activity) (since : Option TsStr) (m : Nat), 0 < m →
      (incremental_filter now data since (some m)).1.length ≤ m) ∧
    (∀ (data : List Activity) (since : Option TsStr) (mcc : Option Nat),
      (incremental_filter now data since mcc).1.Sublist data) := by
  refine ⟨?_, ?_, ?_⟩
  · intro raw since
    exact incFilterGo_len now _ 5 (raw.take 5) [] none (by simp)
  · intro data since m hm
    exact incFilterGo_len now _ m data [] none (by simpa using hm)
  · intro data since mcc
    obtain ⟨kept, h1, h2⟩ :=
      incFilterGo_shape now (since.bind (parse_linkedin_timestamp now)) mcc
        data [] none
    have : (incremental_filter now data since mcc).1 = kept := by
      simpa using h1
    rw [this]
    exact h2

/-- Witness for C10 at a concrete input: six posts all newer than the
marker still yield at most 5 records, in input order. -/
theorem C10_witness :
    (0 : Nat) < 5 ∧
    (incremental_filter 100
      [⟨.iso 1, "a"⟩, ⟨.iso 2, "b"⟩, ⟨.iso 3, "c"⟩,
       ⟨.iso 4, "d"⟩, ⟨.iso 5, "e"⟩, ⟨.iso 6, "f"⟩] none (some 5)).1.length ≤ 5 :=
  ⟨by decide,
    (C10_batch_limit 100).2.1
      [⟨.iso 1, "a"⟩, ⟨.iso 2, "b"⟩, ⟨.iso 3, "c"⟩,
       ⟨.iso 4, "d"⟩, ⟨.iso 5, "e"⟩, ⟨.iso 6, "f"⟩] none 5 (by decide)⟩

/-- The per-fetch marker triple update of `scrape_user_activity`
(lines 1536-1681): each kind's stored marker is replaced by the filter's
`most_recent` when one exists, else left as it was (`new_times` is
initialised to the old values). -/
def scrape_user_activity_times (now : Int)
    (rawP rawC rawR : List Activity) (tp tc tr : Option TsStr) :
    Option TsStr × Option TsStr × Option TsStr :=
  (applyMarker tp (extract_batch now rawP tp 5).2,
   applyMarker tc (extract_batch now rawC tc 5).2,
   applyMarker tr (extract_batch now rawR tr 5).2)

/-- One fetch of one activity kind: the wall-clock time of the fetch and
the raw batch served by the page. -/
structure FetchInput where
  now : Int
  raw : List Activity
deriving DecidableEq, Repr

/-- The stored marker after one successful fetch of one kind
(`scrape_user_activity` filtering a batch against the stored marker and
then updating it). -/
def fetch_marker_step (old : Option TsStr) (f : FetchInput) : Option TsStr :=
  applyMarker old (extract_batch f.now f.raw old 5).2

/-- The stored marker after a sequence of successful fetches. -/
def run_marker (init : Option TsStr) (fs : List FetchInput) : Option TsStr :=
  fs.foldl fetch_marker_step init

/-- Marker order: if the left marker is a stored ISO timestamp, the
right one is a stored ISO timestamp at least as late. -/
def markerLe (o1 o2 : Option TsStr) : Prop :=
  ∀ t1 : Int, o1 = some (.iso t1) → ∃ t2 : Int, o2 = some (.iso t2) ∧ t1 ≤ t2

lemma markerLe_refl (o : Option TsStr) : markerLe o o :=
  fun t1 h => ⟨t1, h, le_rfl⟩

lemma markerLe_trans {a b c : Option TsStr} (h1 : markerLe a b)
    (h2 : markerLe b c) : markerLe a c := by
  intro t1 ha
  obtain ⟨t2, hb, h12⟩ := h1 t1 ha
  obtain ⟨t3, hc, h23⟩ := h2 t2 hb
  exact ⟨t3, hc, le_trans h12 h23⟩

/-- If the filter run against stored marker `iso T` emits a
`most_recent`, that value is strictly later than `T`. -/
lemma filter_mr_gt (now T : Int) (data : List Activity) (mcc : Option Nat)
    {M : Int} (h : (incremental_filter now data (some (.iso T)) mcc).2 = some M) :
    T < M := by
  have hmr := incremental_filter_mr now mcc data (some (.iso T))
  rw [h] at hmr
  have hmem := listMaxO_mem hmr.symm
  obtain ⟨a, hakept, hap⟩ := List.mem_filterMap.mp hmem
  have hcut : incremental_filter now data (some (.iso T)) mcc =
      incFilterGo now (some T) mcc data [] none := rfl
  rw [hcut] at hakept
  rcases incFilterGo_mem now (some T) mcc data [] none a hakept with h' | ⟨-, hnd⟩
  · exact absurd h' (List.not_mem_nil a)
  · rw [hap] at hnd
    simp only [droppedByCutoff, decide_eq_false_iff_not] at hnd
    omega

/-- One fetch leaves the marker unchanged or strictly advances it. -/
lemma fetch_marker_step_mono (old : Option TsStr) (f : FetchInput) :
    fetch_marker_step old f = old ∨
      ∃ t' : Int, fetch_marker_step old f = some (.iso t') ∧
        ∀ T : Int, old = some (.iso T) → T < t' := by
  unfold fetch_marker_step
  cases h : (extract_batch f.now f.raw old 5).2 with
  | none => left; rfl
  | some M =>
    right
    refine ⟨M, rfl, fun T hT => ?_⟩
    rw [hT] at h
    exact filter_mr_gt f.now T (f.raw.take 5) (some 5) h

lemma fetch_marker_step_le (old : Option TsStr) (f : FetchInput) :
    markerLe old (fetch_marker_step old f) := by
  rcases fetch_marker_step_mono old f with h | ⟨t', h1, h2⟩
  · rw [h]; exact markerLe_refl old
  · intro t1 ht1
    exact ⟨t', h1, le_of_lt (h2 t1 ht1)⟩

lemma run_marker_mono (fs : List FetchInput) :
    ∀ init : Option TsStr, markerLe init (run_marker init fs) := by
  induction fs with
  | nil => intro init; exact markerLe_refl init
  | cons f rest ih =>
    intro init
    exact markerLe_trans (fetch_marker_step_le init f)
      (ih (fetch_marker_step init f))

/-- C3: Marker monotonicity.  Each of the three stored markers (posts,
comments, reactions) is, after a successful fetch, either unchanged or a
strictly later timestamp; and across any sequence of successful fetches
a stored marker never decreases. -/
theorem C3_marker_monotonicity
    (now : Int) (rawP rawC rawR : List Activity) (tp tc tr : Option TsStr) :
    (let nt := scrape_user_activity_times now rawP rawC rawR tp tc tr
     (nt.1 = tp ∨ ∃ t' : Int, nt.1 = some (.iso t') ∧
        ∀ T : Int, tp = some (.iso T) → T < t') ∧
     (nt.2.1 = tc ∨ ∃ t' : Int, nt.2.1 = some (.iso t') ∧
        ∀ T : Int, tc = some (.iso T) → T < t') ∧
     (nt.2.2 = tr ∨ ∃ t' : Int, nt.2.2 = some (.iso t') ∧
        ∀ T : Int, tr = some (.iso T) → T < t')) ∧
    (∀ (fs : List FetchInput) (init : Option TsStr),
      markerLe init (run_marker init fs)) := by
  refine ⟨⟨?_, ?_, ?_⟩, fun fs init => run_marker_mono fs init⟩
  · exact fetch_marker_step_mono tp ⟨now, rawP⟩
  · exact fetch_marker_step_mono tc ⟨now, rawC⟩
  · exact fetch_marker_step_mono tr ⟨now, rawR⟩

/-- Witness for C3 at a concrete input. -/
theorem C3_witness :
    markerLe (some (.iso 5))
      (run_marker (some (.iso 5)) [⟨100, [⟨.iso 7, "a"⟩]⟩]) :=
  (C3_marker_monotonicity 0 [] [] [] none none none).2
    [⟨100, [⟨.iso 7, "a"⟩]⟩] (some (.iso 5))

/-!
Model of the per-worker session machinery of `PlaywrightProfileScraper`:
the worker-owned state, the slice of `linkedin_state.json` it touches,
and `scrape_profile` / `_enter_cooldown` / `_check_cooldown_state` /
the worker-thread dequeue loop.
-/

/-- Worker-owned state of `PlaywrightProfileScraper` (the fields read or
written by `scrape_profile`).  `browserInits` counts browser
teardown/rebuild cycles (`cleanup()` + browser relaunch) to make
reinitialisation observable. -/
structure WorkerState where
  inCooldown : Bool
  cooldownUntil : Option Int
  sessionStart : Option Int
  profilesScraped : Nat
  maxProfilesPerSession : Nat
  sessionDurationLimit : Int
  isLoggedIn : Bool
  browserInits : Nat
deriving DecidableEq, Repr

/-- Entry persisted under the `worker_<id>_cooldown` key of
`linkedin_state.json`. -/
structure CooldownEntry where
  in_cooldown : Bool
  cooldown_until : Option Int
deriving DecidableEq, Repr

/-- The per-profile marker triple (`last_post_time`, `last_comment_time`,
`last_reaction_time`). -/
def Markers := Option TsStr × Option TsStr × Option TsStr
deriving instance DecidableEq, Repr for Markers

/-- The slice of `linkedin_state.json` touched by the modelled
operations: the `processed_urls` list, the per-profile marker records,
and (for one worker) its persisted cooldown entry. -/
structure StateFile where
  processed_urls : List String
  profile_times : List (String × Markers)
  cooldown : CooldownEntry
deriving DecidableEq, Repr

/-- Lookup of `state.get(profile_url, {})` marker fields
(lines 683-686): missing keys read as `None`. -/
def lookupTimes (l : List (String × Markers)) (u : String) : Markers :=
  match l.find? (fun p => p.1 == u) with
  | some p => p.2
  | none => (none, none, none)

/-- `state[profile_url] = new_times` (line 752): keyed upsert. -/
def setTimes : List (String × Markers) → String → Markers →
    List (String × Markers)
  | [], u, t => [(u, t)]
  | (k, v) :: rest, u, t =>
    if k = u then (k, t) :: rest else (k, v) :: setTimes rest u t

/-- `processed_urls` update of `scrape_profile` (lines 767-772): append
the url unless already present. -/
def markProcessedUrls (processed : List String) (url : String) : List String :=
  if url ∈ processed then processed else processed ++ [url]

/-- `_enter_cooldown` (lines 913-935): set the in-memory cooldown until
`now + hours` and persist it. -/
def enter_cooldown (w : WorkerState) (st : StateFile) (now hours : Int) :
    WorkerState × StateFile :=
  let u := now + hours
  ({ w with inCooldown := true, cooldownUntil := some u },
   { st with cooldown := ⟨true, some u⟩ })

/-- `_check_cooldown_state` (lines 937-964).  When the persisted entry
says `in_cooldown` with an unexpired `cooldown_until`, the in-memory
cooldown is restored; an expired one clears the in-memory flags.  The
final block (lines 955-960) then unconditionally overwrites the
persisted entry with `{in_cooldown: False, cooldown_until: None}` — it
is not guarded by the expiry test.  A persisted entry with
`in_cooldown` set but no date makes `fromisoformat("")` raise, and the
surrounding `except` leaves both worker and file untouched. -/
def check_cooldown_state (w : WorkerState) (st : StateFile) (now : Int) :
    WorkerState × StateFile :=
  if st.cooldown.in_cooldown then
    match st.cooldown.cooldown_until with
    | none => (w, st)
    | some u =>
      let w' := if now < u then
          { w with inCooldown := true, cooldownUntil := some u }
        else
          { w with inCooldown := false, cooldownUntil := none }
      (w', { st with cooldown := ⟨false, none⟩ })
  else
    (w, { st with cooldown := ⟨false, none⟩ })

/-- Browser teardown + rebuild (`cleanup()` followed by the browser
relaunch of lines 163-244): restores any persisted cooldown, and when
not in cooldown resets `session_start_time` and `profiles_scraped` and
re-runs the cookie/login check.  The session caps
(`max_profiles_per_session`, `session_duration_limit`) are set only in
`__init__` (lines 86-87) and are NOT re-drawn here. -/
def reinit_browser (w : WorkerState) (st : StateFile) (now : Int)
    (loginOk : Bool) : WorkerState × StateFile :=
  let r := check_cooldown_state
    { w with browserInits := w.browserInits + 1 } st now
  if r.1.inCooldown then r
  else
    ({ r.1 with sessionStart := some now, profilesScraped := 0,
                isLoggedIn := loginOk }, r.2)

/-- Session-cap test of `scrape_profile` (lines 661-663):
`now - session_start_time > session_duration_limit or
profiles_scraped >= max_profiles_per_session`. -/
def capReached (w : WorkerState) (now : Int) : Bool :=
  (match w.sessionStart with
   | some s => decide (w.sessionDurationLimit < now - s)
   | none => false) ||
  decide (w.maxProfilesPerSession ≤ w.profilesScraped)

/-- External outcomes of one `scrape_profile` call: the wall clock, the
login / navigation / block-detection / database-write outcomes, the
random cooldown length drawn on a block, and the raw activity batches
served by the page. -/
structure FetchEnv where
  now : Int
  loginOk : Bool
  navOk : Bool
  blocked : Bool
  saveOk : Bool
  cooldownHours : Int
  rawPosts : List Activity
  rawComments : List Activity
  rawReactions : List Activity
deriving DecidableEq, Repr

/-- Result of one `scrape_profile` call: whether data was returned
(Python: not `None`), whether the call reached profile navigation, and
the final worker / state-file contents. -/
structure ScrapeResult where
  returnedData : Bool
  navigated : Bool
  worker : WorkerState
  state : StateFile
deriving DecidableEq, Repr

/-- `scrape_profile` from the processed-url check onwards
(lines 676-775): skip when already processed, read the profile's stored
markers, navigate, check for blocks (entering cooldown on one), filter
and store the activity, bump the per-session counter, write the profile
to the database, and only after that write succeeds append the url to
`processed_urls`. -/
def scrape_profile_core (w : WorkerState) (st : StateFile) (env : FetchEnv)
    (url : String) : ScrapeResult :=
  if url ∈ st.processed_urls then ⟨false, false, w, st⟩
  else
    let tpct := lookupTimes st.profile_times url
    if ¬ env.navOk then ⟨false, true, w, st⟩
    else if env.blocked then
      let r := enter_cooldown w st env.now env.cooldownHours
      ⟨false, true, r.1, r.2⟩
    else
      let nt := scrape_user_activity_times env.now
        env.rawPosts env.rawComments env.rawReactions tpct.1 tpct.2.1 tpct.2.2
      let st1 := { st with profile_times := setTimes st.profile_times url nt }
      let w1 := { w with profilesScraped := w.profilesScraped + 1 }
      if ¬ env.saveOk then ⟨false, true, w1, st1⟩
      else
        ⟨true, true, w1,
          { st1 with processed_urls := markProcessedUrls st1.processed_urls url }⟩

/-- `scrape_profile` after the cooldown gate (lines 660-775): possible
browser reinitialisation when a session cap is hit, the login check, and
then `scrape_profile_core`. -/
def scrape_profile_body (w : WorkerState) (st : StateFile) (env : FetchEnv)
    (url : String) : ScrapeResult :=
  let r :=
    if capReached w env.now then reinit_browser w st env.now env.loginOk
    else (w, st)
  if r.1.isLoggedIn then scrape_profile_core r.1 r.2 env url
  else if env.loginOk then
    scrape_profile_core { r.1 with isLoggedIn := true } r.2 env url
  else ⟨false, false, r.1, r.2⟩

/-- `scrape_profile` (lines 626-779).  Sets `session_start_time` on
first use (lines 643-644); while the in-memory cooldown is unexpired it
returns `None` without touching anything (lines 647-651); an expired
cooldown is cleared in memory and in the state file (lines 652-658)
before normal processing resumes.  (`in_cooldown` is only ever set
together with a date — see `_enter_cooldown` and
`_check_cooldown_state` — so the dateless case is modelled as
expired.) -/
def scrape_profile (w0 : WorkerState) (st : StateFile) (env : FetchEnv)
    (url : String) : ScrapeResult :=
  let w := if w0.sessionStart = none then
      { w0 with sessionStart := some env.now } else w0
  if w.inCooldown then
    match w.cooldownUntil with
    | some u =>
      if env.now < u then ⟨false, false, w, st⟩
      else
        scrape_profile_body { w with inCooldown := false }
          { st with cooldown := ⟨false, none⟩ } env url
    | none =>
      scrape_profile_body { w with inCooldown := false }
        { st with cooldown := ⟨false, none⟩ } env url
  else scrape_profile_body w st env url

/-- What one iteration of `_worker_thread`'s loop (lines 2469-2495) does
before processing: sleep because of cooldown, find the queue empty, or
claim the next target. -/
inductive LoopAction where
  | sleepCooldown
  | idle
  | dequeued (t : String)
deriving DecidableEq, Repr

/-- `profile_queue.get(timeout=5)` (lines 2489-2495): claim the head of
the queue, or find it empty. -/
def dequeue_step (w : WorkerState) (q : List String) :
    LoopAction × WorkerState × List String :=
  match q with
  | [] => (.idle, w, [])
  | t :: rest => (.dequeued t, w, rest)

/-- One scheduling decision of `_worker_thread` (lines 2471-2495): while
`in_cooldown` with a future `cooldown_until` it sleeps without touching
the queue; an expired cooldown is cleared and the loop falls through to
the dequeue; a falsy `cooldown_until` also falls through (the guard is
`worker.in_cooldown and worker.cooldown_until`). -/
def worker_loop_step (w : WorkerState) (now : Int) (q : List String) :
    LoopAction × WorkerState × List String :=
  if w.inCooldown then
    match w.cooldownUntil with
    | some u =>
      if 0 < u - now then (.sleepCooldown, w, q)
      else dequeue_step { w with inCooldown := false } q
    | none => dequeue_step w q
  else dequeue_step w q

lemma check_cooldown_state_keeps (w : WorkerState) (st : StateFile) (now : Int) :
    (check_cooldown_state w st now).2.processed_urls = st.processed_urls ∧
    (check_cooldown_state w st now).2.profile_times = st.profile_times := by
  unfold check_cooldown_state
  split
  · split <;> exact ⟨rfl, rfl⟩
  · exact ⟨rfl, rfl⟩

lemma reinit_browser_keeps (w : WorkerState) (st : StateFile) (now : Int)
    (lo : Bool) :
    (reinit_browser w st now lo).2.processed_urls = st.processed_urls ∧
    (reinit_browser w st now lo).2.profile_times = st.profile_times := by
  simp only [reinit_browser]
  split
  · exact check_cooldown_state_keeps _ _ _
  · exact check_cooldown_state_keeps _ _ _

lemma scrape_profile_core_processed (w : WorkerState) (st : StateFile)
    (env : FetchEnv) (url : String) :
    (scrape_profile_core w st env url).state.processed_urls = st.processed_urls ∨
    (env.saveOk = true ∧
      (scrape_profile_core w st env url).state.processed_urls =
        markProcessedUrls st.processed_urls url) := by
  unfold scrape_profile_core
  split
  · left; rfl
  · split
    · left; rfl
    · split
      · left; rfl
      · split
        · left; rfl
        · rename_i hsv
          right
          simp only [Bool.not_eq_true, not_not] at hsv
          exact ⟨by simpa using hsv, rfl⟩

lemma scrape_profile_body_processed (w : WorkerState) (st : StateFile)
    (env : FetchEnv) (url : String) :
    (scrape_profile_body w st env url).state.processed_urls = st.processed_urls ∨
    (env.saveOk = true ∧
      (scrape_profile_body w st env url).state.processed_urls =
        markProcessedUrls st.processed_urls url) := by
  unfold scrape_profile_body
  by_cases hcap : capReached w env.now = true
  · simp only [hcap, if_true]
    have hr2 := (reinit_browser_keeps w st env.now env.loginOk).1
    split
    · rcases scrape_profile_core_processed _ _ env url with h | ⟨h1, h2⟩
      · left; rw [h, hr2]
      · right; exact ⟨h1, by rw [h2, hr2]⟩
    · split
      · rcases scrape_profile_core_processed _ _ env url with h | ⟨h1, h2⟩
        · left; rw [h, hr2]
        · right; exact ⟨h1, by rw [h2, hr2]⟩
      · left; exact hr2
  · simp only [Bool.not_eq_true] at hcap
    simp only [hcap, Bool.false_eq_true, if_false]
    split
    · exact scrape_profile_core_processed _ _ env url
    · split
      · exact scrape_profile_core_processed _ _ env url
      · left; rfl

lemma scrape_profile_processed (w : WorkerState) (st : StateFile)
    (env : FetchEnv) (url : String) :
    (scrape_profile w st env url).state.processed_urls = st.processed_urls ∨
    (env.saveOk = true ∧
      (scrape_profile w st env url).state.processed_urls =
        markProcessedUrls st.processed_urls url) := by
  have hbody : ∀ (w1 : WorkerState) (st1 : StateFile),
      st1.processed_urls = st.processed_urls →
      ((scrape_profile_body w1 st1 env url).state.processed_urls =
          st.processed_urls ∨
        (env.saveOk = true ∧
          (scrape_profile_body w1 st1 env url).state.processed_urls =
            markProcessedUrls st.processed_urls url)) := by
    intro w1 st1 h1
    rcases scrape_profile_body_processed w1 st1 env url with h | ⟨h2, h3⟩
    · left; rw [h, h1]
    · right; exact ⟨h2, by rw [h3, h1]⟩
  simp only [scrape_profile]
  split
  · split
    · split
      · split
        · left; rfl
        · exact hbody _ _ rfl
      · exact hbody _ _ rfl
    · exact hbody _ _ rfl
  · split
    · split
      · split
        · left; rfl
        · exact hbody _ _ rfl
      · exact hbody _ _ rfl
    · exact hbody _ _ rfl

/-- C5: Persistence-error atomicity / at-least-once effect.  If the
profile-store write fails, `processed_urls` is unchanged, so an
unprocessed target stays eligible for redelivery; and a url can be newly
marked processed only by a call whose store write succeeded. -/
theorem C5_persistence_atomicity (w : WorkerState) (st : StateFile)
    (env : FetchEnv) (url : String) (hfail : env.saveOk = false) :
    ((scrape_profile w st env url).state.processed_urls = st.processed_urls) ∧
    (url ∉ st.processed_urls →
      url ∉ (scrape_profile w st env url).state.processed_urls) ∧
    (∀ env' : FetchEnv,
      url ∈ (scrape_profile w st env' url).state.processed_urls →
        url ∈ st.processed_urls ∨ env'.saveOk = true) := by
  have hmain : (scrape_profile w st env url).state.processed_urls =
      st.processed_urls := by
    rcases scrape_profile_processed w st env url with h | ⟨h1, -⟩
    · exact h
    · rw [h1] at hfail; cases hfail
  refine ⟨hmain, fun hn => by rw [hmain]; exact hn, fun env' hmem => ?_⟩
  rcases scrape_profile_processed w st env' url with h | ⟨h1, -⟩
  · left; rwa [h] at hmem
  · right; exact h1

/-- Witness for C5 at a concrete input: a failing store write leaves the
processed list empty. -/
theorem C5_witness :
    ((⟨1, true, true, false, false, 2, [], [], []⟩ : FetchEnv).saveOk = false) ∧
    (scrape_profile ⟨false, none, some 0, 0, 5, 10, true, 0⟩ ⟨[], [], ⟨false, none⟩⟩
      ⟨1, true, true, false, false, 2, [], [], []⟩ "u").state.processed_urls
      = ([] : List String) :=
  ⟨rfl,
    (C5_persistence_atomicity ⟨false, none, some 0, 0, 5, 10, true, 0⟩
      ⟨[], [], ⟨false, none⟩⟩ ⟨1, true, true, false, false, 2, [], [], []⟩
      "u" rfl).1⟩

/-- C6: Cooldown enforcement.  With an unexpired in-memory cooldown,
`scrape_profile` returns `None` without navigating and without touching
the state file, and the worker loop sleeps without claiming a target;
once the wall clock passes `cooldown_until`, the loop clears the
cooldown and claims the next target, and `scrape_profile` clears the
cooldown and proceeds with normal processing. -/
theorem C6_cooldown_enforcement (w : WorkerState) (st : StateFile)
    (env : FetchEnv) (url : String) (q : List String) (u : Int)
    (hcd : w.inCooldown = true) (hu : w.cooldownUntil = some u) :
    (env.now < u →
      (scrape_profile w st env url).returnedData = false ∧
      (scrape_profile w st env url).navigated = false ∧
      (scrape_profile w st env url).state = st) ∧
    (env.now < u →
      worker_loop_step w env.now q = (.sleepCooldown, w, q)) ∧
    (u ≤ env.now → ∀ t rest, q = t :: rest →
      worker_loop_step w env.now q =
        (.dequeued t, { w with inCooldown := false }, rest)) ∧
    (u ≤ env.now → ∃ w' : WorkerState, w'.inCooldown = false ∧
      scrape_profile w st env url =
        scrape_profile_body w' { st with cooldown := ⟨false, none⟩ } env url) := by
  refine ⟨fun hnow => ?_, fun hnow => ?_, fun hnow t rest hq => ?_, fun hnow => ?_⟩
  · by_cases hss : w.sessionStart = none
    · simp [scrape_profile, hss, hcd, hu, hnow]
    · simp [scrape_profile, hss, hcd, hu, hnow]
  · simp [worker_loop_step, hcd, hu, show (0:Int) < u - env.now by omega]
  · subst hq
    simp [worker_loop_step, hcd, hu, dequeue_step,
      show ¬ (0:Int) < u - env.now by omega]
  · by_cases hss : w.sessionStart = none
    · exact ⟨{ w with sessionStart := some env.now, inCooldown := false }, rfl,
        by simp [scrape_profile, hss, hcd, hu, not_lt.mpr hnow]⟩
    · exact ⟨{ w with inCooldown := false }, rfl,
        by simp [scrape_profile, hss, hcd, hu, not_lt.mpr hnow]⟩

/-- Witness for C6 at a concrete input: a worker in cooldown until 100
at wall clock 0 neither navigates nor dequeues. -/
theorem C6_witness :
    ((⟨0, true, true, false, true, 2, [], [], []⟩ : FetchEnv).now < 100) ∧
    (scrape_profile ⟨true, some 100, some 0, 0, 5, 10, true, 0⟩
      ⟨[], [], ⟨true, some 100⟩⟩
      ⟨0, true, true, false, true, 2, [], [], []⟩ "u").navigated = false ∧
    worker_loop_step ⟨true, some 100, some 0, 0, 5, 10, true, 0⟩ 0 ["t"] =
      (.sleepCooldown, ⟨true, some 100, some 0, 0, 5, 10, true, 0⟩, ["t"]) :=
  ⟨by decide,
    ((C6_cooldown_enforcement ⟨true, some 100, some 0, 0, 5, 10, true, 0⟩
        ⟨[], [], ⟨true, some 100⟩⟩ ⟨0, true, true, false, true, 2, [], [], []⟩
        "u" ["t"] 100 rfl rfl).1 (by decide)).2.1,
    (C6_cooldown_enforcement ⟨true, some 100, some 0, 0, 5, 10, true, 0⟩
        ⟨[], [], ⟨true, some 100⟩⟩ ⟨0, true, true, false, true, 2, [], [], []⟩
        "u" ["t"] 100 rfl rfl).2.1 (by decide)⟩

/-- C8: Evaluation of `_enter_cooldown` / `_check_cooldown_state` at a
restart with a persisted, unexpired cooldown (until = 100, clock = 0).
The restore puts the worker back into cooldown with the same deadline,
but the unconditional final block of `_check_cooldown_state`
(lines 955-960) overwrites the persisted entry with
`{in_cooldown: False, cooldown_until: None}` while the window is still
unexpired, so a second restart no longer restores the cooldown. -/
theorem C8_cooldown_persistence_lost :
    ((check_cooldown_state ⟨false, none, none, 0, 5, 10, false, 0⟩
        ⟨[], [], ⟨true, some 100⟩⟩ 0).1.inCooldown = true ∧
     (check_cooldown_state ⟨false, none, none, 0, 5, 10, false, 0⟩
        ⟨[], [], ⟨true, some 100⟩⟩ 0).1.cooldownUntil = some 100) ∧
    (check_cooldown_state ⟨false, none, none, 0, 5, 10, false, 0⟩
        ⟨[], [], ⟨true, some 100⟩⟩ 0).2.cooldown =
      ⟨false, none⟩ ∧
    (check_cooldown_state ⟨false, none, none, 0, 5, 10, false, 0⟩
        (check_cooldown_state ⟨false, none, none, 0, 5, 10, false, 0⟩
          ⟨[], [], ⟨true, some 100⟩⟩ 0).2 0).1.inCooldown = false := by
  decide

/-- C9 counterexample: a worker whose per-session profile cap (5) is
reached reinitialises its browser, but keeps exactly the same
`max_profiles_per_session` and `session_duration_limit` — the caps are
drawn only in `__init__` (lines 86-87) and are never re-rolled by the
rebuild, contradicting the claim that they are re-randomized on every
reinitialisation. -/
theorem C9_counterexample :
    capReached ⟨false, none, some 0, 5, 5, 10, true, 0⟩ 1 = true ∧
    (scrape_profile ⟨false, none, some 0, 5, 5, 10, true, 0⟩
        ⟨[], [], ⟨false, none⟩⟩ ⟨1, true, true, false, true, 2, [], [], []⟩
        "u").worker.browserInits = 1 ∧
    (scrape_profile ⟨false, none, some 0, 5, 5, 10, true, 0⟩
        ⟨[], [], ⟨false, none⟩⟩ ⟨1, true, true, false, true, 2, [], [], []⟩
        "u").worker.maxProfilesPerSession = 5 ∧
    (scrape_profile ⟨false, none, some 0, 5, 5, 10, true, 0⟩
        ⟨[], [], ⟨false, none⟩⟩ ⟨1, true, true, false, true, 2, [], [], []⟩
        "u").worker.sessionDurationLimit = 10 := by
  decide

lemma scrape_profile_core_fields (w : WorkerState) (st : StateFile)
    (env : FetchEnv) (url : String) :
    (scrape_profile_core w st env url).worker.browserInits = w.browserInits ∧
    (scrape_profile_core w st env url).worker.maxProfilesPerSession =
      w.maxProfilesPerSession ∧
    (scrape_profile_core w st env url).worker.sessionDurationLimit =
      w.sessionDurationLimit ∧
    (scrape_profile_core w st env url).worker.sessionStart = w.sessionStart ∧
    (scrape_profile_core w st env url).worker.profilesScraped ≤
      w.profilesScraped + 1 := by
  simp only [scrape_profile_core, enter_cooldown]
  split
  · exact ⟨rfl, rfl, rfl, rfl, Nat.le_succ _⟩
  · split
    · exact ⟨rfl, rfl, rfl, rfl, Nat.le_succ _⟩
    · split
      · exact ⟨rfl, rfl, rfl, rfl, Nat.le_succ _⟩
      · split
        · exact ⟨rfl, rfl, rfl, rfl, le_rfl⟩
        · exact ⟨rfl, rfl, rfl, rfl, le_rfl⟩

/-- C9 amended: when a worker begins processing a target with a session
cap reached (and it is not in cooldown, nor is one persisted), it tears
down and rebuilds its browser before any fetching: the rebuild counter
advances, the session clock and per-session counter are re-based, but
both caps are exactly preserved — they are randomized once at agent
construction and stay fixed across reinitialisations. -/
theorem C9_session_cap_reinit (w : WorkerState) (st : StateFile)
    (env : FetchEnv) (url : String) (s : Int)
    (hss : w.sessionStart = some s) (hcool : w.inCooldown = false)
    (hstc : st.cooldown.in_cooldown = false)
    (hcap : capReached w env.now = true) :
    (scrape_profile w st env url).worker.browserInits = w.browserInits + 1 ∧
    (scrape_profile w st env url).worker.maxProfilesPerSession =
      w.maxProfilesPerSession ∧
    (scrape_profile w st env url).worker.sessionDurationLimit =
      w.sessionDurationLimit ∧
    (scrape_profile w st env url).worker.profilesScraped ≤ 1 := by
  have hss' : ¬ (w.sessionStart = none) := by rw [hss]; simp
  have h1 : scrape_profile w st env url = scrape_profile_body w st env url := by
    simp [scrape_profile, hss', hcool]
  have h2 : reinit_browser w st env.now env.loginOk =
      ({ w with browserInits := w.browserInits + 1,
                sessionStart := some env.now, profilesScraped := 0,
                isLoggedIn := env.loginOk },
       { st with cooldown := ⟨false, none⟩ }) := by
    simp [reinit_browser, check_cooldown_state, hstc, hcool]
  rw [h1]
  simp only [scrape_profile_body, hcap, if_true, h2]
  cases hlo : env.loginOk
  · simp only [hlo, Bool.false_eq_true, if_false]
    exact ⟨trivial, trivial, trivial, by omega⟩
  · simp only [hlo, if_true]
    obtain ⟨f1, f2, f3, -, f5⟩ := scrape_profile_core_fields
      { w with browserInits := w.browserInits + 1,
               sessionStart := some env.now, profilesScraped := 0,
               isLoggedIn := true }
      { st with cooldown := ⟨false, none⟩ } env url
    exact ⟨f1, f2, f3, f5⟩

/-- Witness for C9's amended statement at a concrete input. -/
theorem C9_witness :
    ((⟨false, none, some 0, 5, 5, 10, true, 0⟩ : WorkerState).sessionStart
        = some 0 ∧
      capReached ⟨false, none, some 0, 5, 5, 10, true, 0⟩ 1 = true) ∧
    (scrape_profile ⟨false, none, some 0, 5, 5, 10, true, 0⟩
        ⟨[], [], ⟨false, none⟩⟩ ⟨1, true, true, false, true, 2, [], [], []⟩
        "u").worker.browserInits = 0 + 1 ∧
    (scrape_profile ⟨false, none, some 0, 5, 5, 10, true, 0⟩
        ⟨[], [], ⟨false, none⟩⟩ ⟨1, true, true, false, true, 2, [], [], []⟩
        "u").worker.maxProfilesPerSession = 5 ∧
    (scrape_profile ⟨false, none, some 0, 5, 5, 10, true, 0⟩
        ⟨[], [], ⟨false, none⟩⟩ ⟨1, true, true, false, true, 2, [], [], []⟩
        "u").worker.sessionDurationLimit = 10 ∧
    (scrape_profile ⟨false, none, some 0, 5, 5, 10, true, 0⟩
        ⟨[], [], ⟨false, none⟩⟩ ⟨1, true, true, false, true, 2, [], [], []⟩
        "u").worker.profilesScraped ≤ 1 :=
  ⟨⟨rfl, by decide⟩,
    C9_session_cap_reinit ⟨false, none, some 0, 5, 5, 10, true, 0⟩
      ⟨[], [], ⟨false, none⟩⟩ ⟨1, true, true, false, true, 2, [], [], []⟩
      "u" 0 rfl rfl rfl (by decide)⟩

/-- A row of the `processed_profiles` table as written by
`DatabaseStateManager.mark_processed` (`processed_at` is set to the
transaction clock on every call and carries no information about which
urls are processed, so it is not part of the model). -/
structure DbRow where
  worker_id : Option Nat
  session_id : Option Nat
  status : String
  error_message : Option String
deriving DecidableEq, Repr

/-- `DatabaseStateManager.mark_processed` (state_management.py,
lines 184-209): `INSERT ... ON CONFLICT (profile_url) DO UPDATE` — a
keyed upsert of the row stored for `profile_url`. -/
def mark_processed : List (String × DbRow) → String → DbRow →
    List (String × DbRow)
  | [], u, r => [(u, r)]
  | (k, v) :: rest, u, r =>
    if k = u then (k, r) :: rest else (k, v) :: mark_processed rest u r

lemma mark_processed_idem (rows : List (String × DbRow)) (u : String)
    (r : DbRow) :
    mark_processed (mark_processed rows u r) u r = mark_processed rows u r := by
  induction rows with
  | nil => simp [mark_processed]
  | cons p rest ih =>
    obtain ⟨k, v⟩ := p
    by_cases hk : k = u
    · simp [mark_processed, hk]
    · simp [mark_processed, hk, ih]

lemma markProcessedUrls_idem (procs : List String) (u : String) :
    markProcessedUrls (markProcessedUrls procs u) u = markProcessedUrls procs u := by
  by_cases h : u ∈ procs <;> simp [markProcessedUrls, h]

lemma listMaxO_eq_none {xs : List Int} (h : listMaxO xs = none) : xs = [] := by
  cases xs with
  | nil => rfl
  | cons x rest => simp [listMaxO] at h

lemma incFilterGo_all_dropped (now : Int) (cutoff : Option Int)
    (mc : Option Nat) (l : List Activity)
    (h : ∀ a ∈ l, droppedByCutoff cutoff
      (parse_linkedin_timestamp now a.timestamp) = true) :
    ∀ (acc : List Activity) (mr : Option Int),
      incFilterGo now cutoff mc l acc mr = (acc.reverse, mr) := by
  induction l with
  | nil => intro acc mr; rfl
  | cons b rest ih =>
    intro acc mr
    simp only [incFilterGo, h b (List.mem_cons_self b rest), if_true]
    exact ih (fun a ha => h a (List.mem_cons_of_mem b ha)) acc mr

/-- After a first pass whose `most_recent` is `M`, every record of the
same all-resolvable batch resolves at or before `M`, so a replay drops
it. -/
lemma second_pass_all_dropped (now : Int) (data : List Activity) (m : Nat)
    (since : Option TsStr) (M : Int)
    (hlen : data.length ≤ m)
    (hres : ∀ a ∈ data, (parse_linkedin_timestamp now a.timestamp).isSome = true)
    (hM : (incremental_filter now data since (some m)).2 = some M) :
    ∀ a ∈ data, droppedByCutoff (some M)
      (parse_linkedin_timestamp now a.timestamp) = true := by
  intro a ha
  obtain ⟨t, ht⟩ := Option.isSome_iff_exists.mp (hres a ha)
  rw [ht]
  simp only [droppedByCutoff, decide_eq_true_eq]
  have hmr := incremental_filter_mr now (some m) data since
  rw [hM] at hmr
  by_cases hk : a ∈ (incremental_filter now data since (some m)).1
  · exact listMaxO_ge hmr.symm t (List.mem_filterMap.mpr ⟨a, hk, ht⟩)
  · have hdrop : droppedByCutoff (since.bind (parse_linkedin_timestamp now))
        (parse_linkedin_timestamp now a.timestamp) = true := by
      by_contra hnd
      rw [Bool.not_eq_true] at hnd
      exact hk (incFilterGo_keep now (since.bind (parse_linkedin_timestamp now))
        (some m) data [] none a
        (fun k hkk => by cases hkk; simpa using hlen) ha hnd)
    cases hc : since.bind (parse_linkedin_timestamp now) with
    | none =>
      rw [hc, ht] at hdrop
      simp [droppedByCutoff] at hdrop
    | some c =>
      rw [hc, ht] at hdrop
      simp only [droppedByCutoff, decide_eq_true_eq] at hdrop
      have hMmem := listMaxO_mem hmr.symm
      obtain ⟨b, hbk, hbp⟩ := List.mem_filterMap.mp hMmem
      rcases incFilterGo_mem now (since.bind (parse_linkedin_timestamp now))
          (some m) data [] none b hbk with h' | ⟨-, hbnd⟩
      · exact absurd h' (List.not_mem_nil b)
      · rw [hbp, hc] at hbnd
        simp only [droppedByCutoff, decide_eq_false_iff_not] at hbnd
        omega

/-- C4 counterexample: the claim says replaying an identical fetch
result against the markers produced by the first pass yields no new
records.  A batch whose only record has an unparseable timestamp is
kept by the first pass, produces no marker, and is kept again — in
full — on replay. -/
theorem C4_counterexample :
    (incremental_filter 100 [⟨.bad, "x"⟩] none (some 5)).1 = [⟨.bad, "x"⟩] ∧
    (incremental_filter 100 [⟨.bad, "x"⟩]
        (applyMarker none (incremental_filter 100 [⟨.bad, "x"⟩] none (some 5)).2)
        (some 5)).1 = [⟨.bad, "x"⟩] := by
  decide

/-- C4 amended: `mark_processed` (both the `processed_urls` list update
of `scrape_profile` and the database upsert) is idempotent; and when
every record of the batch has a resolvable timestamp, replaying the
identical fetch result against the markers produced by the first pass
yields no records and leaves the stored marker unchanged.  (Records
with unresolvable timestamps are re-emitted by a replay — see the
counterexample.) -/
theorem C4_idempotence (procs : List String) (u : String)
    (rows : List (String × DbRow)) (r : DbRow)
    (now : Int) (data : List Activity) (m : Nat) (since : Option TsStr)
    (hlen : data.length ≤ m)
    (hres : ∀ a ∈ data, (parse_linkedin_timestamp now a.timestamp).isSome = true) :
    markProcessedUrls (markProcessedUrls procs u) u =
      markProcessedUrls procs u ∧
    mark_processed (mark_processed rows u r) u r = mark_processed rows u r ∧
    (incremental_filter now data
      (applyMarker since (incremental_filter now data since (some m)).2)
      (some m)).1 = [] ∧
    applyMarker (applyMarker since (incremental_filter now data since (some m)).2)
      (incremental_filter now data
        (applyMarker since (incremental_filter now data since (some m)).2)
        (some m)).2
      = applyMarker since (incremental_filter now data since (some m)).2 := by
  refine ⟨markProcessedUrls_idem procs u, mark_processed_idem rows u r, ?_⟩
  cases hM : (incremental_filter now data since (some m)).2 with
  | none =>
    -- no marker was emitted: the batch filtered to nothing (all records
    -- resolvable), and the replay is the very same computation
    have hmr := incremental_filter_mr now (some m) data since
    rw [hM] at hmr
    have hnil := listMaxO_eq_none hmr.symm
    have hkept : (incremental_filter now data since (some m)).1 = [] := by
      by_contra hne
      obtain ⟨b, hb⟩ := List.exists_mem_of_ne_nil _ hne
      rcases incFilterGo_mem now (since.bind (parse_linkedin_timestamp now))
          (some m) data [] none b hb with h' | ⟨hbd, -⟩
      · exact absurd h' (List.not_mem_nil b)
      · obtain ⟨t, ht⟩ := Option.isSome_iff_exists.mp (hres b hbd)
        have : t ∈ (incremental_filter now data since (some m)).1.filterMap
            (fun a => parse_linkedin_timestamp now a.timestamp) :=
          List.mem_filterMap.mpr ⟨b, hb, ht⟩
        rw [hnil] at this
        exact absurd this (List.not_mem_nil t)
    show (incremental_filter now data since (some m)).1 = [] ∧
      applyMarker since (incremental_filter now data since (some m)).2 = since
    rw [hkept, hM]
    exact ⟨rfl, rfl⟩
  | some M =>
    have hall := second_pass_all_dropped now data m since M hlen hres hM
    have hsecond : incremental_filter now data (some (.iso M)) (some m)
        = ([], none) :=
      incFilterGo_all_dropped now (some M) (some m) data hall [] none
    show (incremental_filter now data (some (.iso M)) (some m)).1 = [] ∧
      applyMarker (some (.iso M))
        (incremental_filter now data (some (.iso M)) (some m)).2
        = some (.iso M)
    rw [hsecond]
    exact ⟨rfl, rfl⟩

/-- Witness for C4's amended statement at a concrete input. -/
theorem C4_witness :
    (([(⟨.iso 3, "a"⟩ : Activity)] : List Activity).length ≤ 5 ∧
      ∀ a ∈ ([(⟨.iso 3, "a"⟩ : Activity)] : List Activity),
        (parse_linkedin_timestamp 100 a.timestamp).isSome = true) ∧
    (incremental_filter 100 [⟨.iso 3, "a"⟩]
      (applyMarker none (incremental_filter 100 [⟨.iso 3, "a"⟩] none (some 5)).2)
      (some 5)).1 = [] :=
  ⟨⟨by decide, by decide⟩,
    (C4_idempotence [] "u" [] ⟨none, none, "completed", none⟩ 100
      [⟨.iso 3, "a"⟩] 5 none (by decide) (by decide)).2.2.1⟩

/-!
Model of the dedup/merge engine of src/test.py: `normalize_text`,
`normalize_url`, the `add_activity` grouping of
`extract_social_activity_by_profile`, and `merge_social_activities`.
Strings are handled at ASCII level (`str.lower` / `\s` beyond ASCII are
not exercised by the properties proved here).
-/

/-- Python regex `\s` on ASCII (the whitespace collapsed by
`normalize_text`'s `re.sub(r'\s+', ' ', text)` and stripped by
`str.strip()`). -/
def pySpace (c : Char) : Bool :=
  c = ' ' || c = '\t' || c = '\n' || c = '\r' ||
    c = Char.ofNat 11 || c = Char.ofNat 12

/-- Whitespace-run collapse, carrying whether the previous character was
part of a whitespace run. -/
def collapseWsAux : Bool → List Char → List Char
  | _, [] => []
  | prevSpace, c :: rest =>
    if pySpace c then
      if prevSpace then collapseWsAux true rest
      else ' ' :: collapseWsAux true rest
    else c :: collapseWsAux false rest

/-- `re.sub(r'\s+', ' ', text)`: every whitespace run becomes one
space. -/
def collapseWs (l : List Char) : List Char := collapseWsAux false l

/-- Python `str.strip()`. -/
def pyStrip (l : List Char) : List Char :=
  ((l.dropWhile pySpace).reverse.dropWhile pySpace).reverse

/-- `normalize_text` (test.py lines 50-55): falsy text → `""`; else
strip, lower-case, collapse whitespace. -/
def normalize_text (s : String) : String :=
  if s = "" then ""
  else ⟨collapseWs ((pyStrip s.data).map Char.toLower)⟩

example : normalize_text "Hello world" = "hello world" := by decide
example : normalize_text "hello   world" = "hello world" := by decide
example : normalize_text "  A  " = "a" := by decide

/-- Drop a trailing `?query` / `#fragment` (urlparse's `path` stops at
either). -/
def dropQueryFrag (s : String) : String :=
  ⟨s.data.takeWhile (fun c => c ≠ '?' ∧ c ≠ '#')⟩

/-- Python `str.rstrip("/")`. -/
def rstripSlash (s : String) : String :=
  ⟨(s.data.reverse.dropWhile (· = '/')).reverse⟩

/-- Split a character list at the first occurrence of `"://"`:
`none` when the separator does not occur, else the parts before and
after it. -/
def splitFirstSep : List Char → Option (List Char × List Char)
  | [] => none
  | c :: rest =>
    if c = ':' ∧ rest.take 2 = ['/', '/'] then some ([], rest.drop 2)
    else
      match splitFirstSep rest with
      | some p => some (c :: p.1, p.2)
      | none => none

/-- Lower-casing on the underlying characters (`str.lower()` at ASCII
level). -/
def lowerStr (s : String) : String := ⟨s.data.map Char.toLower⟩

/-- `normalize_url` (test.py lines 44-48):
`f"{scheme}://{netloc}{path}".rstrip("/").lower()` of the parsed url.
The embedding covers `scheme://host/path?query#fragment` urls and
scheme-less strings (`urlparse` then leaves scheme and netloc empty and
puts everything before `?`/`#` in `path`). -/
def normalize_url (url : String) : String :=
  if url = "" then ""
  else
    match splitFirstSep url.data with
    | none => lowerStr (rstripSlash ("://" ++ dropQueryFrag url))
    | some p =>
      let netloc : String := ⟨p.2.takeWhile (· ≠ '/')⟩
      let path : String := dropQueryFrag ⟨p.2.dropWhile (· ≠ '/')⟩
      lowerStr (rstripSlash (⟨p.1⟩ ++ "://" ++ netloc ++ path))

example : normalize_url "u1" = "://u1" := by decide
example :
    normalize_url "https://www.Site.com/in/Foo/?utm=1" =
      "https://www.site.com/in/foo" := by
  decide

/-- One record of `activity_map` as built by `add_activity`
(test.py lines 86-94). -/
structure ActRecord where
  post_author_name : String
  post_text : String
  comment : String
  timestamp : Option String
  source : List String
  engagement : Option String
deriving DecidableEq, Repr

/-- The arguments of one `add_activity` call (test.py line 79). -/
structure AddActivityArgs where
  target_url : String
  target_name : String
  post_text : String
  comment : String
  source : String
  engagement : Option String
  timestamp : Option String
deriving DecidableEq, Repr

/-- The merge-or-append scan of `add_activity` (lines 95-105): the first
existing record with the same normalized post text and normalized
comment absorbs the new source; otherwise a new record is appended. -/
def mergeIntoRecords : List ActRecord → AddActivityArgs → List ActRecord
  | [], p => [⟨p.target_name, p.post_text, p.comment, p.timestamp,
               [p.source], p.engagement⟩]
  | r :: rest, p =>
    if normalize_text r.post_text = normalize_text p.post_text ∧
        normalize_text r.comment = normalize_text p.comment then
      ({ r with source := if p.source ∈ r.source then r.source
                          else r.source ++ [p.source] }) :: rest
    else r :: mergeIntoRecords rest p

/-- Keyed update of `activity_map` (a Python dict, insertion-ordered). -/
def updateActivityMap : List (String × List ActRecord) → String →
    AddActivityArgs → List (String × List ActRecord)
  | [], k, p => [(k, mergeIntoRecords [] p)]
  | (k0, v) :: rest, k, p =>
    if k0 = k then (k0, mergeIntoRecords v p) :: rest
    else (k0, v) :: updateActivityMap rest k p

/-- `add_activity` (test.py lines 79-105): records without a target url
are dropped; the map is keyed by the normalized engaged-identity url. -/
def add_activity (m : List (String × List ActRecord))
    (p : AddActivityArgs) : List (String × List ActRecord) :=
  if p.target_url = "" then m
  else updateActivityMap m (normalize_url p.target_url) p

/-- Python truthiness of an optional string (`None` and `""` are
falsy). -/
def strOptTruthy : Option String → Bool
  | none => false
  | some s => s ≠ ""

/-- The single action slot of a merged group (test.py lines 183-188):
`{"source": [], "post_timestamp": act.get("timestamp"),
"comment": None, "engagement": act.get("engagement", {})}`. -/
structure ActionSlot where
  source : List String
  post_timestamp : Option String
  comment : Option String
  comment_timestamp : Option String
  engagement : Option String
deriving DecidableEq, Repr

/-- One entry of `merge_social_activities`' output (its `actions` list
always holds exactly one slot, line 191). -/
structure MergedGroup where
  post_author_name : String
  post_text : String
  action : ActionSlot
deriving DecidableEq, Repr

/-- Merging one activity record into a group's action slot
(test.py lines 192-205): union the sources; once a "comment" source is
present, a truthy timestamp overwrites `comment_timestamp` and a truthy
comment overwrites `comment`; a truthy engagement overwrites
`engagement`. -/
def mergeActIntoSlot (slot : ActionSlot) (act : ActRecord) : ActionSlot :=
  let s1 := { slot with
    source := act.source.foldl
      (fun acc s => if s ∈ acc then acc else acc ++ [s]) slot.source }
  let s2 :=
    if "comment" ∈ s1.source then
      let sa := if strOptTruthy act.timestamp then
          { s1 with comment_timestamp := act.timestamp } else s1
      if act.comment ≠ "" then { sa with comment := some act.comment } else sa
    else s1
  if strOptTruthy act.engagement then { s2 with engagement := act.engagement }
  else s2

/-- Fresh slot for a new group key (lines 180-189). -/
def newSlot (act : ActRecord) : ActionSlot :=
  ⟨[], act.timestamp, none, none, act.engagement⟩

/-- Insert one record into the ordered group list, keyed by
`normalize_text(post_text)` (lines 177-205). -/
def insertAct : List MergedGroup → ActRecord → List MergedGroup
  | [], act =>
    [⟨act.post_author_name, act.post_text,
      mergeActIntoSlot (newSlot act) act⟩]
  | g :: gs, act =>
    if normalize_text g.post_text = normalize_text act.post_text then
      { g with action := mergeActIntoSlot g.action act } :: gs
    else g :: insertAct gs act

def mergeGroupsGo : List MergedGroup → List ActRecord → List MergedGroup
  | gs, [] => gs
  | gs, act :: rest => mergeGroupsGo (insertAct gs act) rest

/-- Cleanup pass (lines 206-214): falsy `comment` and `engagement` are
removed (the `action.pop("timestamp")` of line 212 touches a key the
slots never carry and is a no-op). -/
def cleanupSlot (s : ActionSlot) : ActionSlot :=
  let s1 := if strOptTruthy s.comment then s else { s with comment := none }
  if strOptTruthy s1.engagement then s1 else { s1 with engagement := none }

/-- `merge_social_activities` (test.py lines 171-215). -/
def merge_social_activities (acts : List ActRecord) : List MergedGroup :=
  (mergeGroupsGo [] acts).map
    (fun g => { g with action := cleanupSlot g.action })

/-- C2: Dedup/merge correctness.  A reaction with engaged-identity url
`u` and text `t`, followed by a comment on a post with the same url and
a text normalizing to the same string: `add_activity` keeps them under
the single key `normalize_url u` (as two records, since their comments
normalize differently), and `merge_social_activities` yields exactly
one group whose kind set is the union {reaction, comment} and whose
comment text and `comment_timestamp` come from the comment record. -/
theorem C2_dedup_merge (r c : AddActivityArgs)
    (hru : r.target_url ≠ "")
    (hcu : c.target_url = r.target_url)
    (hrs : r.source = "reaction") (hcs : c.source = "comment")
    (hrc : r.comment = "") (hre : r.engagement = none)
    (hce : c.engagement = none)
    (htext : normalize_text c.post_text = normalize_text r.post_text)
    (hcc : normalize_text c.comment ≠ "")
    (hccne : c.comment ≠ "")
    (hct : strOptTruthy c.timestamp = true) :
    add_activity (add_activity [] r) c =
      [(normalize_url r.target_url,
        [⟨r.target_name, r.post_text, "", r.timestamp, ["reaction"], none⟩,
         ⟨c.target_name, c.post_text, c.comment, c.timestamp,
           ["comment"], none⟩])] ∧
    merge_social_activities
      [⟨r.target_name, r.post_text, "", r.timestamp, ["reaction"], none⟩,
       ⟨c.target_name, c.post_text, c.comment, c.timestamp,
         ["comment"], none⟩] =
      [⟨r.target_name, r.post_text,
        ⟨["reaction", "comment"], r.timestamp, some c.comment,
          c.timestamp, none⟩⟩] := by
  obtain ⟨ru, rn, rp, rc0, rs, re, rt⟩ := r
  obtain ⟨cu, cn, cp, cc, cs, ce, ct⟩ := c
  dsimp only at hru hcu hrs hcs hrc hre hce htext hcc hccne hct ⊢
  subst hcu hrs hcs hrc hre hce
  have hn0 : normalize_text "" = "" := rfl
  have hcc' : "" ≠ normalize_text cc := Ne.symm hcc
  have hne1 : ("comment" : String) ≠ "reaction" := by decide
  constructor
  · simp [add_activity, updateActivityMap, mergeIntoRecords, hru, htext,
      hn0, hcc']
  · have hsc : strOptTruthy (some cc) = true := by simp [strOptTruthy, hccne]
    have hsn : strOptTruthy none = false := rfl
    simp [merge_social_activities, mergeGroupsGo, insertAct, mergeActIntoSlot,
      newSlot, cleanupSlot, htext, hct, hsc, hsn, hccne, hne1]

/-- Witness for C2 at the spec's concrete example. -/
theorem C2_witness :
    (("u1" : String) ≠ "" ∧
      normalize_text "hello   world" = normalize_text "Hello world" ∧
      normalize_text "nice!" ≠ "" ∧ ("nice!" : String) ≠ "" ∧
      strOptTruthy (some "2d") = true) ∧
    merge_social_activities
      [⟨"Alice", "Hello world", "", some "3d", ["reaction"], none⟩,
       ⟨"Alice", "hello   world", "nice!", some "2d", ["comment"], none⟩] =
      [⟨"Alice", "Hello world",
        ⟨["reaction", "comment"], some "3d", some "nice!",
          some "2d", none⟩⟩] :=
  ⟨⟨by decide, by decide, by decide, by decide, by decide⟩,
    (C2_dedup_merge
      ⟨"u1", "Alice", "Hello world", "", "reaction", none, some "3d"⟩
      ⟨"u1", "Alice", "hello   world", "nice!", "comment", none, some "2d"⟩
      (by decide) rfl rfl rfl rfl rfl rfl (by decide) (by decide)
      (by decide) (by decide)).2⟩
